import Mathlib

/-!
# traefik-watch: the emptiness test `isZero`, the pruning loop of `main`, and `writeConfig`

A shallow embedding of `src/cmd/traefik-watch/main.go`.

* Go values are modelled the way `reflect` shows them: a tree of `Value`s, each carrying the
  name of its dynamic type. Values are finite trees, so cyclic pointer graphs (on which the Go
  function would not return) are outside the model.
* The method sets of the program are a parameter `Methods`: for a type name, the `IsZero() bool`
  method of that type if its method set has one. A method may fail to return (`none`), which
  models a panic; `isZero` therefore returns `Option Bool`.
* The operating system and the YAML encoder are parameters too: `Sys` holds the answers of the
  operating system during one call of `writeConfig`, `marshal` is `yaml.Marshal`.
-/

namespace TraefikWatch

/-! ## Values -/

/-- Name of a Go type, e.g. `"string"`, `"main.T"`, `"*main.T"`. -/
abbrev TypeName := String

/-- The kinds of `reflect.Kind` that `isZero` tells apart. `Int` stands for `Int, Int8, Int16,
Int32, Int64`, `Uint` for `Uint, Uint8, Uint16, Uint32, Uint64, Uintptr`, `Float` for `Float32,
Float64`; `Misc` stands for the kinds the switch does not list (`Array, Chan, Func, Complex64,
Complex128, UnsafePointer`). -/
inductive Kind where
  | String | Ptr | Interface | Slice | Map | Int | Float | Uint | Bool | Struct | Misc
  deriving DecidableEq, Repr

mutual
/-- A Go value as `reflect.Value` presents it. The first argument of every constructor but
`iface` is the name of the type of the value. A nil slice or map is the empty list. The zero
`reflect.Value` (kind `Invalid`) is left out: `main` calls `isZero` on `reflect.ValueOf` of a
typed pointer, and from there `isZero` only moves to `v.Elem()` of a non-nil pointer and to
`v.Field(i)`, which are valid. -/
inductive Value where
  | string (t : TypeName) (s : String)
  /-- A pointer: `referent = none` is the nil pointer. -/
  | ptr (t : TypeName) (referent : Option Value)
  /-- A value of interface kind (a struct field, slice element or pointee whose static type is
  an interface): `referent` is the dynamic value it holds, `none` for the nil interface. -/
  | iface (referent : Option Value)
  | slice (t : TypeName) (elems : List Value)
  | map (t : TypeName) (entries : List (Value × Value))
  | int (t : TypeName) (i : Int)
  | float (t : TypeName) (f : Float)
  | uint (t : TypeName) (u : Nat)
  | bool (t : TypeName) (b : Bool)
  | struct (t : TypeName) (fields : List Field)
  /-- A value of any other kind (array, channel, function, complex number, unsafe pointer). -/
  | misc (t : TypeName)
/-- A struct field together with its value: `PkgPath` is `reflect.StructField.PkgPath`, empty
exactly for exported fields. -/
inductive Field where
  | mk (Name : String) (PkgPath : String) (value : Value)
end

/-- The field name. -/
def Field.Name : Field → String
  | .mk n _ _ => n

/-- The package path of `reflect.StructField`: `""` for an exported field. -/
def Field.PkgPath : Field → String
  | .mk _ p _ => p

/-- The value stored in the field. -/
def Field.value : Field → Value
  | .mk _ _ v => v

/-- The result of `v.Kind()`. -/
def Value.Kind : Value → Kind
  | .string _ _ => .String
  | .ptr _ _ => .Ptr
  | .iface _ => .Interface
  | .slice _ _ => .Slice
  | .map _ _ => .Map
  | .int _ _ => .Int
  | .float _ _ => .Float
  | .uint _ _ => .Uint
  | .bool _ _ => .Bool
  | .struct _ _ => .Struct
  | .misc _ => .Misc

/-- The result of `v.IsNil()` for a pointer or an interface (the only kinds `isZero` asks). -/
def Value.IsNil : Value → Bool
  | .ptr _ none => true
  | .iface none => true
  | _ => false

/-- The result of `v.Interface()`: for a value of interface kind the dynamic value inside
(`none` for the nil interface), for any other value the value itself. -/
def Value.Interface : Value → Option Value
  | .iface r => r
  | v => some v

/-- The dynamic type of a value held in an `any`; a value of interface kind is never the dynamic
value of an interface, so it has none. -/
def Value.dynType : Value → Option TypeName
  | .string t _ => some t
  | .ptr t _ => some t
  | .iface _ => none
  | .slice t _ => some t
  | .map t _ => some t
  | .int t _ => some t
  | .float t _ => some t
  | .uint t _ => some t
  | .bool t _ => some t
  | .struct t _ => some t
  | .misc t => some t

/-! ## Method sets and the `isZeroer` interface -/

/-- The method sets of the program, as far as `IsZero() bool` goes: `M t = some m` when the
method set of the type named `t` has `IsZero`, and then `m v` is what `v.IsZero()` returns for a
value `v` of that type (`none`: the call panics). For a pointer type `*T` the method set holds
the methods declared with receiver `*T` and those declared with receiver `T`. -/
abbrev Methods := TypeName → Option (Value → Option Bool)

/-- A value of interface type `isZeroer`: a dynamic value together with its `IsZero` method. -/
structure isZeroer where
  recv : Value
  method : Value → Option Bool

/-- The call `z.IsZero()`. -/
def isZeroer.IsZero (z : isZeroer) : Option Bool := z.method z.recv

/-- The type assertion `x.(isZeroer)` on an `any`: `none` when `ok` is false. -/
def assertIsZeroer (M : Methods) : Option Value → Option isZeroer
  | none => none
  | some x =>
    match x.dynType with
    | none => none
    | some t =>
      match M t with
      | none => none
      | some m => some ⟨x, m⟩

/-! ## `isZero` -/

/-- Lines 31-37 of `isZero`: when `v.Interface()` is an `isZeroer` the answer is `true` for a nil
pointer or interface and `z.IsZero()` otherwise; `switchResult` is what the switch on the kind
(lines 38-73) returns, used when the assertion fails. -/
def viaIsZeroer (M : Methods) (v : Value) (switchResult : Option Bool) : Option Bool :=
  match assertIsZeroer M v.Interface with
  | some z =>
    if (v.Kind == Kind.Ptr || v.Kind == Kind.Interface) && v.IsNil then some true
    else z.IsZero
  | none => switchResult

mutual
/-- The function `isZero` of `main.go`. `none` means the call panics (inside an `IsZero` method;
`isZero` itself has no other way to fail on a finite value). -/
def isZero (M : Methods) : Value → Option Bool
  | .string t s => viaIsZeroer M (.string t s) (some (s.utf8ByteSize == 0))
  | .ptr t (some e) => viaIsZeroer M (.ptr t (some e)) (isZero M e)
  | .ptr t none => viaIsZeroer M (.ptr t none) (some true)
  | .iface r => viaIsZeroer M (.iface r) (some (Value.iface r).IsNil)
  | .slice t xs => viaIsZeroer M (.slice t xs) (some (xs.length == 0))
  | .map t kvs => viaIsZeroer M (.map t kvs) (some (kvs.length == 0))
  | .int t i => viaIsZeroer M (.int t i) (some (i == 0))
  | .float t f => viaIsZeroer M (.float t f) (some (f == 0))
  | .uint t u => viaIsZeroer M (.uint t u) (some (u == 0))
  | .bool t b => viaIsZeroer M (.bool t b) (some (!b))
  | .struct t fs => viaIsZeroer M (.struct t fs) (isZeroFields M fs)
  | .misc t => viaIsZeroer M (.misc t) (some false)
/-- The loop of the `reflect.Struct` case over the fields from index `i` on. The Go loop runs
`i` from `NumField()-1` down to `0`, so the fields after `f` are visited before `f`: when they
made the loop return `false` (or panic) that is the result; otherwise an unexported `f` is
skipped and an exported `f` either makes the loop return `false` or lets it go on (`true`). -/
def isZeroFields (M : Methods) : List Field → Option Bool
  | [] => some true
  | .mk _ pkgPath v :: rest =>
    match isZeroFields M rest with
    | some true => if pkgPath ≠ "" then some true else isZero M v
    | r => r
end

/-- The loop of the `reflect.Struct` case written in the order it runs, over the fields listed
from the last to the first. -/
def fieldLoop (M : Methods) : List Field → Option Bool
  | [] => some true
  | f :: earlier =>
    if f.PkgPath ≠ "" then fieldLoop M earlier
    else
      match isZero M f.value with
      | none => none
      | some false => some false
      | some true => fieldLoop M earlier

/-! ## The configuration document and the pruning step of `main` -/

/-- The document `dynamic.Configuration` as `main` uses it: four sections, each a pointer
(`none` is nil) to a record of the traefik library. The record types themselves are not part of
the program; the referent of a section is a `Value`, and `Configuration.shaped` says which
values the library types allow. -/
structure Configuration where
  HTTP : Option Value
  TCP : Option Value
  UDP : Option Value
  TLS : Option Value

/-- The `reflect.ValueOf(config.X)` of a section: a value of kind `Ptr`. -/
def ValueOf (t : TypeName) (section_ : Option Value) : Value := Value.ptr t section_

/-- Type name of `config.TCP`. -/
def tcpType : TypeName := "*dynamic.TCPConfiguration"
/-- Type name of `config.UDP`. -/
def udpType : TypeName := "*dynamic.UDPConfiguration"
/-- Type name of `config.HTTP`. -/
def httpType : TypeName := "*dynamic.HTTPConfiguration"
/-- Type name of `config.TLS`. -/
def tlsType : TypeName := "*dynamic.TLSConfiguration"

/-- Lines 148-150: `if isZero(reflect.ValueOf(config.TCP)) { config.TCP = nil }`. -/
def pruneTCP (M : Methods) (config : Configuration) : Option Configuration :=
  match isZero M (ValueOf tcpType config.TCP) with
  | none => none
  | some true => some { config with TCP := none }
  | some false => some config

/-- Lines 152-154: `if isZero(reflect.ValueOf(config.UDP)) { config.UDP = nil }`. -/
def pruneUDP (M : Methods) (config : Configuration) : Option Configuration :=
  match isZero M (ValueOf udpType config.UDP) with
  | none => none
  | some true => some { config with UDP := none }
  | some false => some config

/-- Lines 156-158: `if isZero(reflect.ValueOf(config.HTTP)) { config.HTTP = nil }`. -/
def pruneHTTP (M : Methods) (config : Configuration) : Option Configuration :=
  match isZero M (ValueOf httpType config.HTTP) with
  | none => none
  | some true => some { config with HTTP := none }
  | some false => some config

/-- Lines 160-162: `if isZero(reflect.ValueOf(config.TLS)) { config.TLS = nil }`. -/
def pruneTLS (M : Methods) (config : Configuration) : Option Configuration :=
  match isZero M (ValueOf tlsType config.TLS) with
  | none => none
  | some true => some { config with TLS := none }
  | some false => some config

/-- The pruning step of the loop body (lines 148-162): the four tests in the order TCP, UDP,
HTTP, TLS. `none` means one of the `isZero` calls panicked. -/
def prune (M : Methods) (config : Configuration) : Option Configuration :=
  match pruneTCP M config with
  | none => none
  | some c1 =>
    match pruneUDP M c1 with
    | none => none
    | some c2 =>
      match pruneHTTP M c2 with
      | none => none
      | some c3 => pruneTLS M c3

/-! ## Files and `writeConfig` -/

/-- The content of a file. -/
abbrev Bytes := List UInt8

/-- A regular file: its permission bits and its content. -/
structure File where
  mode : Nat
  data : Bytes

/-- The files by name; `none` when no file of that name exists. -/
abbrev FS := String → Option File

/-- The file system with the file `name` replaced by `f`. -/
def FS.set (fs : FS) (name : String) (f : File) : FS :=
  fun n => if n = name then some f else fs n

/-- The flags of `os.OpenFile`. -/
inductive OpenFlag where
  | O_RDONLY | O_WRONLY | O_RDWR | O_APPEND | O_CREATE | O_EXCL | O_SYNC | O_TRUNC
  deriving DecidableEq, Repr

/-- What the operating system answers during one call of `writeConfig`: `openErr` is the error
of `os.OpenFile` if it fails; `writeErr` is, if `file.Write` fails, the number of bytes that
reached the file before the failure and the error; `umask` is the file mode creation
mask of the process. -/
structure Sys where
  openErr : Option String
  writeErr : Option (Nat × String)
  umask : Nat

/-- The call `os.OpenFile(name, flag, perm)` on the file system `fs`: a failed open changes
nothing; a successful one creates a missing file (with `O_CREATE`) as an empty file of mode
`perm` less the umask, and cuts an existing file to length zero (with `O_TRUNC`). -/
def OpenFile (sys : Sys) (fs : FS) (name : String) (flag : List OpenFlag) (perm : Nat) :
    Except String FS :=
  match sys.openErr with
  | some err => .error err
  | none =>
    match fs name with
    | none =>
      if OpenFlag.O_CREATE ∈ flag then
        .ok (fs.set name { mode := perm &&& (0o777 ^^^ (sys.umask &&& 0o777)), data := [] })
      else .error "no such file or directory"
    | some f =>
      if OpenFlag.O_TRUNC ∈ flag then .ok (fs.set name { f with data := [] })
      else .ok fs

/-- The call `file.Write(data)` on the file just opened (offset zero): the bytes written replace
the beginning of the file. On success all of `data` is written; on failure only the first
`n` bytes are. The case of a missing file does not arise in `writeConfig`, which writes to the
file it has just opened. -/
def Write (sys : Sys) (fs : FS) (name : String) (data : Bytes) : FS × Option String :=
  match fs name with
  | none => (fs, some "bad file descriptor")
  | some f =>
    match sys.writeErr with
    | none => (fs.set name { f with data := data ++ f.data.drop data.length }, none)
    | some (n, err) =>
      (fs.set name { f with data := data.take n ++ f.data.drop (data.take n).length }, some err)

/-- The flag argument of the `os.OpenFile` call in `writeConfig`:
`os.O_RDWR|os.O_CREATE|os.O_TRUNC`. -/
def writeConfigFlag : List OpenFlag := [.O_RDWR, .O_CREATE, .O_TRUNC]

/-- The permission argument of the `os.OpenFile` call in `writeConfig`. -/
def writeConfigPerm : Nat := 0o640

/-- The function `writeConfig`: returns the file system afterwards and the error (`none` is
`nil`). `marshal` is `yaml.Marshal`. The deferred `file.Close()` does not change the content. -/
def writeConfig (marshal : Configuration → Except String Bytes) (sys : Sys) (filename : String)
    (config : Configuration) (fs : FS) : FS × Option String :=
  match OpenFile sys fs filename writeConfigFlag writeConfigPerm with
  | .error err => (fs, some err)
  | .ok fs1 =>
    match marshal config with
    | .error err => (fs1, some err)
    | .ok data => Write sys fs1 filename data

/-! ## The loop of `main` -/

/-- The state the loop of `main` acts on: the file system and the error records logged so far
(file name and cause, latest first). -/
structure LoopState where
  fs : FS
  logged : List (String × String)

/-- Modelled from the spec: the declaration of `dynamic.Message` is not part of the sources, so
whether `config := msg.Configuration` copies the document or a pointer to it is taken from the
per-document procedure of the spec, which serializes the pruned document. One iteration of the loop
(lines 144-168): prune, call `writeConfig` on the result, log an error if there is one. `none`
means the iteration panicked, which ends the process. -/
def mainStep (M : Methods) (marshal : Configuration → Except String Bytes) (configFilename : String)
    (st : LoopState) (msg : Configuration) (sys : Sys) : Option LoopState :=
  match prune M msg with
  | none => none
  | some config =>
    match writeConfig marshal sys configFilename config st.fs with
    | (fs1, none) => some { st with fs := fs1 }
    | (fs1, some err) => some { fs := fs1, logged := (configFilename, err) :: st.logged }

/-- The loop `for msg := range configChan`, over the messages received, each paired with the
answers of the operating system while it is processed. -/
def mainLoop (M : Methods) (marshal : Configuration → Except String Bytes) (configFilename : String) :
    LoopState → List (Configuration × Sys) → Option LoopState
  | st, [] => some st
  | st, (msg, sys) :: rest =>
    match mainStep M marshal configFilename st msg sys with
    | none => none
    | some st1 => mainLoop M marshal configFilename st1 rest

/-! ## Notions used to state the properties -/

/-- Two field lists of records of the same type that differ at most in the values of hidden
(unexported) fields. -/
def sameVisible (fs gs : List Field) : Prop :=
  List.Forall₂
    (fun f g => f.Name = g.Name ∧ f.PkgPath = g.PkgPath ∧ (f.PkgPath = "" → f.value = g.value))
    fs gs

/-- The four sections of a document, each with the type name of its field, in the order `main`
tests them. -/
def Configuration.sections (c : Configuration) : List (TypeName × Option Value) :=
  [(tcpType, c.TCP), (udpType, c.UDP), (httpType, c.HTTP), (tlsType, c.TLS)]

mutual
/-- A record is populated when it has an exported field that is not empty under `isZero` and
that is populated in turn; a reference (pointer or interface) that holds a referent is
populated when the referent is; any other value (a string, a number, a slice, a map, a nil
reference) is populated, there being no record to look into. -/
def populated (M : Methods) : Value → Bool
  | .struct _ fs => populatedFields M fs
  | .ptr _ (some r) => populated M r
  | .iface (some r) => populated M r
  | _ => true
/-- Some exported field of the list is not empty under `isZero` and is populated. -/
def populatedFields (M : Methods) : List Field → Bool
  | [] => false
  | .mk _ pkgPath v :: rest =>
    (pkgPath == "" && isZero M v == some false && populated M v) || populatedFields M rest
end

/-- The shape of a section of `dynamic.Configuration`. The section types
(`dynamic.HTTPConfiguration`, `dynamic.TCPConfiguration`, `dynamic.UDPConfiguration`,
`dynamic.TLSConfiguration`) belong to the traefik library and are not part of the sources: each
is a record whose fields are all maps or slices, and neither the record type `t` nor the
pointer type `T` of the section has an `IsZero` method. -/
def sectionShaped (M : Methods) (T : TypeName) : Value → Bool
  | .struct t fs =>
    (M T).isNone && (M t).isNone &&
      fs.all (fun f => f.value.Kind == Kind.Map || f.value.Kind == Kind.Slice)
  | _ => false

/-- A configuration document as `main` receives it: every section that is not nil has the shape
of a section. -/
def Configuration.shaped (M : Methods) (c : Configuration) : Bool :=
  c.sections.all (fun p =>
    match p.2 with
    | none => true
    | some r => sectionShaped M p.1 r)

/-- A default-constructed `dynamic.UDPConfiguration`-like record: two nil maps. -/
def emptyUDP : Value :=
  .struct "dynamic.UDPConfiguration"
    [.mk "Routers" "" (.map "map[string]*dynamic.UDPRouter" []),
     .mk "Services" "" (.map "map[string]*dynamic.UDPService" [])]

/-- A default-constructed `dynamic.TCPConfiguration`-like record. -/
def emptyTCP : Value :=
  .struct "dynamic.TCPConfiguration"
    [.mk "Routers" "" (.map "map[string]*dynamic.TCPRouter" []),
     .mk "Services" "" (.map "map[string]*dynamic.TCPService" [])]

/-- A default-constructed `dynamic.TLSConfiguration`-like record. -/
def emptyTLS : Value :=
  .struct "dynamic.TLSConfiguration"
    [.mk "Certificates" "" (.slice "[]*tls.CertAndStores" []),
     .mk "Options" "" (.map "map[string]tls.Options" [])]

/-- An HTTP section with one named router carrying one rule. -/
def oneRuleHTTP : Value :=
  .struct "dynamic.HTTPConfiguration"
    [.mk "Routers" "" (.map "map[string]*dynamic.Router"
        [(.string "string" "web",
          .ptr "*dynamic.Router" (some (.struct "dynamic.Router"
            [.mk "Rule" "" (.string "string" "Host(example.org)")])))]),
     .mk "Services" "" (.map "map[string]*dynamic.Service" [])]

/-- The document of the first end-to-end scenario: HTTP populated, the other sections
default-constructed. -/
def httpOnlyDoc : Configuration :=
  { HTTP := some oneRuleHTTP, TCP := some emptyTCP, UDP := some emptyUDP, TLS := some emptyTLS }

/-- An operating system on which the open and the write succeed, with umask `022`. -/
def okSys : Sys := { openErr := none, writeErr := none, umask := 0o022 }

/-- An operating system on which the open and the write succeed, with umask `0`. -/
def noMaskSys : Sys := { openErr := none, writeErr := none, umask := 0 }

/-- An operating system on which the open fails. -/
def noOpenSys : Sys := { openErr := some "permission denied", writeErr := none, umask := 0o022 }

/-- An operating system on which the write fails after two bytes. -/
def shortWriteSys : Sys :=
  { openErr := none, writeErr := some (2, "no space left on device"), umask := 0o022 }

/-- An encoder that fails on every document. -/
def marshalFails : Configuration → Except String Bytes := fun _ => .error "cannot marshal"

/-- A stand-in encoder: one byte per section of the document, `1` when the section is present,
in the order HTTP, TCP, UDP, TLS. -/
def marshalTags : Configuration → Except String Bytes :=
  fun c => .ok [if c.HTTP.isSome then 1 else 0, if c.TCP.isSome then 1 else 0,
    if c.UDP.isSome then 1 else 0, if c.TLS.isSome then 1 else 0]

/-- The name of the output file in the examples. -/
def exampleName : String := "/etc/traefik/conf.d/traefik.yaml"

/-- A file system holding an earlier output file of five bytes. -/
def oldFS : FS :=
  fun n => if n = exampleName then some { mode := 0o640, data := [7, 7, 7, 7, 7] } else none

/-- A file system without files. -/
def emptyFS : FS := fun _ => none

/-- A default-constructed `dynamic.HTTPConfiguration`-like record. -/
def emptyHTTP : Value :=
  .struct "dynamic.HTTPConfiguration"
    [.mk "Routers" "" (.map "map[string]*dynamic.Router" []),
     .mk "Services" "" (.map "map[string]*dynamic.Service" [])]

/-- A document with all four sections default-constructed. -/
def blankDoc : Configuration :=
  { HTTP := some emptyHTTP, TCP := some emptyTCP, UDP := some emptyUDP, TLS := some emptyTLS }

/-- The method sets of a program in which no type has `IsZero`. -/
def noMethods : Methods := fun _ => none

/-- The method sets of a program with `type T string` and
`func (t *T) IsZero() bool { return false }`: only `*main.T` has the method. -/
def ptrRecvMethods : Methods :=
  fun t => if t = "*main.T" then some (fun _ => some false) else none

/-- The method sets of a program with `type T string` and
`func (t T) IsZero() bool { return false }`: the method is in the method sets of `main.T` and of
`*main.T`, and calling it through a nil `*main.T` panics. -/
def valueRecvMethods : Methods :=
  fun t =>
    if t = "main.T" ∨ t = "*main.T" then
      some (fun v =>
        match v with
        | .ptr _ none => none
        | _ => some false)
    else none

/-! ## Basic facts about `isZero` -/

/-- When the type of `v` has no `IsZero` in its method set, the kind switch decides. -/
theorem viaIsZeroer_of_no_method (M : Methods) (v : Value) (t : TypeName) (k : Option Bool)
    (ht : v.dynType = some t) (h : M t = none) : viaIsZeroer M v k = k := by
  cases v <;> simp_all [viaIsZeroer, assertIsZeroer, Value.Interface, Value.dynType]

/-- When the type of a non-interface `v` has `IsZero` and `v` is not nil, the method decides. -/
theorem viaIsZeroer_of_method (M : Methods) (v : Value) (t : TypeName) (k : Option Bool)
    (m : Value → Option Bool) (ht : v.dynType = some t) (h : M t = some m)
    (hnil : v.IsNil = false) : viaIsZeroer M v k = m v := by
  cases v <;>
    simp_all [viaIsZeroer, assertIsZeroer, Value.Interface, Value.dynType, isZeroer.IsZero]

/-- The package path of a field built with `Field.mk`. -/
@[simp] theorem Field.PkgPath_mk (n p : String) (v : Value) : (Field.mk n p v).PkgPath = p := rfl

/-- The value of a field built with `Field.mk`. -/
@[simp] theorem Field.value_mk (n p : String) (v : Value) : (Field.mk n p v).value = v := rfl

/-- The name of a field built with `Field.mk`. -/
@[simp] theorem Field.Name_mk (n p : String) (v : Value) : (Field.mk n p v).Name = n := rfl

/-- The struct loop returns `true` exactly when every exported field is empty. -/
theorem isZeroFields_eq_true_iff (M : Methods) (fs : List Field) :
    isZeroFields M fs = some true ↔
      ∀ f ∈ fs, f.PkgPath = "" → isZero M f.value = some true := by
  induction fs with
  | nil => simp [isZeroFields]
  | cons f rest ih =>
    obtain ⟨n, p, v⟩ := f
    simp only [isZeroFields, List.mem_cons, forall_eq_or_imp, Field.PkgPath_mk, Field.value_mk]
    rw [← ih]
    cases hrest : isZeroFields M rest with
    | none => simp
    | some b =>
      cases b with
      | false => simp
      | true =>
        by_cases hp : p = ""
        · simp [hp]
        · simp [hp]

/-- The struct loop is the loop `fieldLoop` run over the fields from the last to the first. -/
theorem isZeroFields_eq_fieldLoop (M : Methods) (fs : List Field) :
    isZeroFields M fs = fieldLoop M fs.reverse := by
  have key : ∀ (later earlier : List Field),
      fieldLoop M (later ++ earlier) =
        match fieldLoop M later with
        | some true => fieldLoop M earlier
        | r => r := by
    intro later earlier
    induction later with
    | nil => simp [fieldLoop]
    | cons f rest ih =>
      simp only [List.cons_append, fieldLoop]
      by_cases hp : f.PkgPath = ""
      · simp only [hp, ne_eq, not_true_eq_false, ↓reduceIte]
        cases hz : isZero M f.value with
        | none => simp
        | some b => cases b <;> simp [ih]
      · simp only [ne_eq, hp, not_false_eq_true, ↓reduceIte]
        exact ih
  induction fs with
  | nil => simp [isZeroFields, fieldLoop]
  | cons f rest ih =>
    obtain ⟨n, p, v⟩ := f
    rw [List.reverse_cons, key, ← ih]
    simp only [isZeroFields, fieldLoop, Field.PkgPath_mk, Field.value_mk]
    cases hrest : isZeroFields M rest with
    | none => simp
    | some b =>
      cases b with
      | false => simp
      | true =>
        by_cases hp : p = ""
        · simp only [hp, ne_eq, not_true_eq_false, ↓reduceIte]
          cases hz : isZero M v with
          | none => simp
          | some b => cases b <;> simp
        · simp [hp]

/-- The struct loop returns when the test of every exported field returns. -/
theorem isZeroFields_isSome (M : Methods) (fs : List Field)
    (h : ∀ f ∈ fs, f.PkgPath = "" → (isZero M f.value).isSome = true) :
    (isZeroFields M fs).isSome = true := by
  induction fs with
  | nil => simp [isZeroFields]
  | cons f rest ih =>
    obtain ⟨n, p, v⟩ := f
    have hrest := ih (fun g hg => h g (List.mem_cons_of_mem _ hg))
    have hf := h (Field.mk n p v) (List.mem_cons_self _ _)
    simp only [Field.PkgPath_mk, Field.value_mk] at hf
    simp only [isZeroFields]
    cases hr : isZeroFields M rest with
    | none => simp [hr] at hrest
    | some b =>
      cases b with
      | false => simp
      | true =>
        by_cases hp : p = ""
        · simpa [hp] using hf hp
        · simp [hp]

/-- The struct loop does not read hidden fields. -/
theorem isZeroFields_sameVisible (M : Methods) (fs gs : List Field) (h : sameVisible fs gs) :
    isZeroFields M gs = isZeroFields M fs := by
  unfold sameVisible at h
  induction h with
  | nil => rfl
  | @cons f g fs gs hfg _ ih =>
    obtain ⟨n, p, v⟩ := f
    obtain ⟨n2, p2, v2⟩ := g
    simp only [Field.PkgPath_mk, Field.value_mk, Field.Name_mk] at hfg
    obtain ⟨_, hp, hv⟩ := hfg
    subst hp
    simp only [isZeroFields, ih]
    by_cases hp : p = ""
    · rw [hv hp]
    · simp [hp]

/-- On a nil pointer `isZero` returns `true` whatever the method sets are. -/
theorem isZero_ptr_nil (M : Methods) (t : TypeName) : isZero M (.ptr t none) = some true := by
  rw [isZero]
  cases hm : M t <;>
    simp [viaIsZeroer, assertIsZeroer, Value.Interface, Value.dynType, Value.Kind,
      Value.IsNil, hm]

/-- On a pointer that holds a referent: the method of the pointer type if there is one, the
test of the referent otherwise. -/
theorem isZero_ptr_some (M : Methods) (t : TypeName) (r : Value) :
    isZero M (.ptr t (some r)) =
      match M t with
      | some m => m (.ptr t (some r))
      | none => isZero M r := by
  rw [isZero]
  cases hm : M t with
  | none => exact viaIsZeroer_of_no_method M _ t _ rfl hm
  | some m => exact viaIsZeroer_of_method M _ t _ m rfl hm rfl

/-- The pruning step, given the results of the four tests. -/
theorem prune_eq (M : Methods) (d : Configuration) (bT bU bH bL : Bool)
    (hT : isZero M (ValueOf tcpType d.TCP) = some bT)
    (hU : isZero M (ValueOf udpType d.UDP) = some bU)
    (hH : isZero M (ValueOf httpType d.HTTP) = some bH)
    (hL : isZero M (ValueOf tlsType d.TLS) = some bL) :
    prune M d = some
      { HTTP := if bH then none else d.HTTP, TCP := if bT then none else d.TCP,
        UDP := if bU then none else d.UDP, TLS := if bL then none else d.TLS } := by
  cases bT <;> cases bU <;> cases bH <;> cases bL <;>
    simp [prune, pruneTCP, pruneUDP, pruneHTTP, pruneTLS, hT, hU, hH, hL]

/-- When the pruning step returns, the four tests returned. -/
theorem prune_some (M : Methods) (d d1 : Configuration) (h : prune M d = some d1) :
    ∃ bT bU bH bL,
      isZero M (ValueOf tcpType d.TCP) = some bT ∧ isZero M (ValueOf udpType d.UDP) = some bU ∧
      isZero M (ValueOf httpType d.HTTP) = some bH ∧ isZero M (ValueOf tlsType d.TLS) = some bL := by
  cases hT : isZero M (ValueOf tcpType d.TCP) with
  | none => simp [prune, pruneTCP, hT] at h
  | some bT =>
    cases hU : isZero M (ValueOf udpType d.UDP) with
    | none => cases bT <;> simp [prune, pruneTCP, pruneUDP, hT, hU] at h
    | some bU =>
      cases hH : isZero M (ValueOf httpType d.HTTP) with
      | none => cases bT <;> cases bU <;> simp [prune, pruneTCP, pruneUDP, pruneHTTP, hT, hU, hH] at h
      | some bH =>
        cases hL : isZero M (ValueOf tlsType d.TLS) with
        | none =>
          cases bT <;> cases bU <;> cases bH <;>
            simp [prune, pruneTCP, pruneUDP, pruneHTTP, pruneTLS, hT, hU, hH, hL] at h
        | some bL => exact ⟨bT, bU, bH, bL, rfl, rfl, rfl, rfl⟩

/-- The test of a section that the pruning step has already treated gives the same answer, and
`true` on a section it has set to nil. -/
theorem isZero_pruned_section (M : Methods) (t : TypeName) (x : Option Value) (b : Bool)
    (h : isZero M (ValueOf t x) = some b) :
    isZero M (ValueOf t (if b then none else x)) = some b := by
  cases b with
  | true => exact isZero_ptr_nil M t
  | false => simpa using h

/-- A pruned document is left as it is by the pruning step. -/
theorem prune_fixed (M : Methods) (d d1 : Configuration) (h : prune M d = some d1) :
    prune M d1 = some d1 := by
  obtain ⟨bT, bU, bH, bL, hT, hU, hH, hL⟩ := prune_some M d d1 h
  have hd := prune_eq M d bT bU bH bL hT hU hH hL
  rw [h] at hd
  injection hd with hd
  subst hd
  refine (prune_eq M _ bT bU bH bL ?_ ?_ ?_ ?_).trans ?_
  · exact isZero_pruned_section M tcpType d.TCP bT hT
  · exact isZero_pruned_section M udpType d.UDP bU hU
  · exact isZero_pruned_section M httpType d.HTTP bH hH
  · exact isZero_pruned_section M tlsType d.TLS bL hL
  · cases bT <;> cases bU <;> cases bH <;> cases bL <;> rfl

/-- When the struct loop returns `false`, some exported field is not empty. -/
theorem isZeroFields_eq_false (M : Methods) (fs : List Field)
    (h : isZeroFields M fs = some false) :
    ∃ f ∈ fs, f.PkgPath = "" ∧ isZero M f.value = some false := by
  induction fs with
  | nil => simp [isZeroFields] at h
  | cons f rest ih =>
    obtain ⟨n, p, v⟩ := f
    simp only [isZeroFields] at h
    cases hr : isZeroFields M rest with
    | none => simp [hr] at h
    | some b =>
      cases b with
      | false =>
        obtain ⟨g, hg, hg2⟩ := ih hr
        exact ⟨g, List.mem_cons_of_mem _ hg, hg2⟩
      | true =>
        rw [hr] at h
        by_cases hp : p = ""
        · refine ⟨Field.mk n p v, List.mem_cons_self _ _, hp, ?_⟩
          simpa [hp] using h
        · simp [hp] at h

/-- A record is populated exactly when it has an exported field that is not empty and is
populated in turn. -/
theorem populatedFields_iff (M : Methods) (fs : List Field) :
    populatedFields M fs = true ↔
      ∃ f ∈ fs, f.PkgPath = "" ∧ isZero M f.value = some false ∧ populated M f.value = true := by
  induction fs with
  | nil => simp [populatedFields]
  | cons f rest ih =>
    obtain ⟨n, p, v⟩ := f
    simp only [populatedFields, Bool.or_eq_true, Bool.and_eq_true, beq_iff_eq, ih,
      List.mem_cons, exists_eq_or_imp, Field.PkgPath_mk, Field.value_mk, and_assoc]

/-- A map or a slice is populated: there is no record to look into. -/
theorem populated_of_container (M : Methods) (v : Value)
    (h : (v.Kind == Kind.Map || v.Kind == Kind.Slice) = true) : populated M v = true := by
  cases v <;> simp_all [populated, Value.Kind]

/-- What the shape of a section says. -/
theorem sectionShaped_iff (M : Methods) (T : TypeName) (r : Value) :
    sectionShaped M T r = true ↔
      ∃ t fs, r = .struct t fs ∧ M T = none ∧ M t = none ∧
        ∀ f ∈ fs, (f.value.Kind == Kind.Map || f.value.Kind == Kind.Slice) = true := by
  cases r <;> simp [sectionShaped, and_assoc]

/-- A section of a shaped document has the shape of a section. -/
theorem shaped_section (M : Methods) (d : Configuration) (h : d.shaped M = true)
    (T : TypeName) (r : Value) (hsec : (T, some r) ∈ d.sections) :
    sectionShaped M T r = true := by
  unfold Configuration.shaped at h
  rw [List.all_eq_true] at h
  exact h (T, some r) hsec

/-- The sections present after the pruning step are sections of the original document. -/
theorem pruned_section_mem (M : Methods) (d d1 : Configuration) (h : prune M d = some d1)
    (T : TypeName) (r : Value) (hsec : (T, some r) ∈ d1.sections) :
    (T, some r) ∈ d.sections := by
  obtain ⟨bT, bU, bH, bL, hT, hU, hH, hL⟩ := prune_some M d d1 h
  have hd := prune_eq M d bT bU bH bL hT hU hH hL
  rw [h] at hd
  injection hd with hd
  subst hd
  simp only [Configuration.sections, List.mem_cons, Prod.mk.injEq, List.mem_singleton,
    List.mem_nil_iff, or_false] at hsec ⊢
  rcases hsec with ⟨rfl, h1⟩ | ⟨rfl, h1⟩ | ⟨rfl, h1⟩ | ⟨rfl, h1⟩
  · cases bT <;> simp_all
  · cases bU <;> simp_all
  · cases bH <;> simp_all
  · cases bL <;> simp_all

/-- In a document that the pruning step leaves as it is, every section is nil or not empty. -/
theorem pruned_section_nil_or_not_zero (M : Methods) (d : Configuration)
    (h : prune M d = some d) (T : TypeName) (x : Option Value) (hx : (T, x) ∈ d.sections) :
    x = none ∨ isZero M (ValueOf T x) = some false := by
  obtain ⟨bT, bU, bH, bL, hT, hU, hH, hL⟩ := prune_some M d d h
  have hd := prune_eq M d bT bU bH bL hT hU hH hL
  rw [h] at hd
  injection hd with hd
  have e1 : d.TCP = if bT then none else d.TCP := congrArg Configuration.TCP hd
  have e2 : d.UDP = if bU then none else d.UDP := congrArg Configuration.UDP hd
  have e3 : d.HTTP = if bH then none else d.HTTP := congrArg Configuration.HTTP hd
  have e4 : d.TLS = if bL then none else d.TLS := congrArg Configuration.TLS hd
  simp only [Configuration.sections, List.mem_cons, Prod.mk.injEq, List.mem_singleton,
    List.mem_nil_iff, or_false] at hx
  rcases hx with ⟨rfl, rfl⟩ | ⟨rfl, rfl⟩ | ⟨rfl, rfl⟩ | ⟨rfl, rfl⟩
  · cases bT with
    | true => left; simpa using e1
    | false => right; exact hT
  · cases bU with
    | true => left; simpa using e2
    | false => right; exact hU
  · cases bH with
    | true => left; simpa using e3
    | false => right; exact hH
  · cases bL with
    | true => left; simpa using e4
    | false => right; exact hL

mutual
/-- In a program without `IsZero` methods `isZero` returns on every value. -/
theorem isZero_noMethods_isSome : ∀ v : Value, (isZero noMethods v).isSome = true
  | .string t s => by
    rw [isZero, viaIsZeroer_of_no_method noMethods (.string t s) t _ rfl rfl]; rfl
  | .ptr t (some e) => by
    rw [isZero, viaIsZeroer_of_no_method noMethods (.ptr t (some e)) t _ rfl rfl]
    exact isZero_noMethods_isSome e
  | .ptr t none => by
    rw [isZero, viaIsZeroer_of_no_method noMethods (.ptr t none) t _ rfl rfl]; rfl
  | .iface r => by
    rw [isZero]
    cases r with
    | none => simp [viaIsZeroer, assertIsZeroer, Value.Interface]
    | some x =>
      cases hx : x.dynType <;> simp [viaIsZeroer, assertIsZeroer, Value.Interface, hx, noMethods]
  | .slice t xs => by
    rw [isZero, viaIsZeroer_of_no_method noMethods (.slice t xs) t _ rfl rfl]; rfl
  | .map t kvs => by
    rw [isZero, viaIsZeroer_of_no_method noMethods (.map t kvs) t _ rfl rfl]; rfl
  | .int t i => by
    rw [isZero, viaIsZeroer_of_no_method noMethods (.int t i) t _ rfl rfl]; rfl
  | .float t f => by
    rw [isZero, viaIsZeroer_of_no_method noMethods (.float t f) t _ rfl rfl]; rfl
  | .uint t u => by
    rw [isZero, viaIsZeroer_of_no_method noMethods (.uint t u) t _ rfl rfl]; rfl
  | .bool t b => by
    rw [isZero, viaIsZeroer_of_no_method noMethods (.bool t b) t _ rfl rfl]; rfl
  | .struct t fs => by
    rw [isZero, viaIsZeroer_of_no_method noMethods (.struct t fs) t _ rfl rfl]
    exact isZeroFields_noMethods_isSome fs
  | .misc t => by
    rw [isZero, viaIsZeroer_of_no_method noMethods (.misc t) t _ rfl rfl]; rfl
/-- In a program without `IsZero` methods the struct loop returns on every field list. -/
theorem isZeroFields_noMethods_isSome : ∀ fs : List Field, (isZeroFields noMethods fs).isSome = true
  | [] => by simp [isZeroFields]
  | .mk n p v :: rest => by
    have hr := isZeroFields_noMethods_isSome rest
    have hv := isZero_noMethods_isSome v
    simp only [isZeroFields]
    cases h : isZeroFields noMethods rest with
    | none => simp [h] at hr
    | some b =>
      cases b with
      | false => simp
      | true =>
        by_cases hp : p = ""
        · simpa [hp] using hv
        · simp [hp]
end

/-- In a program without `IsZero` methods the pruning step returns on every document. -/
theorem prune_noMethods_isSome (d : Configuration) : (prune noMethods d).isSome = true := by
  obtain ⟨bT, hT⟩ := Option.isSome_iff_exists.1 (isZero_noMethods_isSome (ValueOf tcpType d.TCP))
  obtain ⟨bU, hU⟩ := Option.isSome_iff_exists.1 (isZero_noMethods_isSome (ValueOf udpType d.UDP))
  obtain ⟨bH, hH⟩ := Option.isSome_iff_exists.1 (isZero_noMethods_isSome (ValueOf httpType d.HTTP))
  obtain ⟨bL, hL⟩ := Option.isSome_iff_exists.1 (isZero_noMethods_isSome (ValueOf tlsType d.TLS))
  rw [prune_eq noMethods d bT bU bH bL hT hU hH hL]
  rfl

/-! ## Basic facts about files and `writeConfig` -/

/-- Reading the file just set. -/
@[simp] theorem FS.set_same (fs : FS) (name : String) (f : File) : fs.set name f name = some f := by
  simp [FS.set]

/-- A successful open by `writeConfig` leaves the file present and empty, with the mode of the
existing file or, for a new file, the permission argument less the umask. -/
theorem OpenFile_writeConfig (sys : Sys) (fs : FS) (name : String) (h : sys.openErr = none) :
    OpenFile sys fs name writeConfigFlag writeConfigPerm =
      .ok (fs.set name
        { mode := match fs name with
            | some f0 => f0.mode
            | none => writeConfigPerm &&& (0o777 ^^^ (sys.umask &&& 0o777)),
          data := [] }) := by
  cases hf : fs name with
  | none => simp [OpenFile, h, hf, writeConfigFlag]
  | some f0 => simp [OpenFile, h, hf, writeConfigFlag]

/-- The four ways a call of `writeConfig` can go. -/
theorem writeConfig_cases (marshal : Configuration → Except String Bytes) (sys : Sys)
    (filename : String) (config : Configuration) (fs : FS) :
    (∀ e, sys.openErr = some e → writeConfig marshal sys filename config fs = (fs, some e)) ∧
    (sys.openErr = none → ∀ e, marshal config = .error e →
      (writeConfig marshal sys filename config fs).2 = some e ∧
      ∃ f, (writeConfig marshal sys filename config fs).1 filename = some f ∧ f.data = []) ∧
    (sys.openErr = none → ∀ data, marshal config = .ok data → sys.writeErr = none →
      (writeConfig marshal sys filename config fs).2 = none ∧
      ∃ f, (writeConfig marshal sys filename config fs).1 filename = some f ∧ f.data = data) ∧
    (sys.openErr = none → ∀ data n e, marshal config = .ok data → sys.writeErr = some (n, e) →
      (writeConfig marshal sys filename config fs).2 = some e ∧
      ∃ f, (writeConfig marshal sys filename config fs).1 filename = some f ∧
        f.data = data.take n) := by
  refine ⟨?_, ?_, ?_, ?_⟩
  · intro e he
    simp [writeConfig, OpenFile, he]
  · intro ho e he
    simp [writeConfig, OpenFile_writeConfig sys fs filename ho, he]
  · intro ho data hd hw
    simp [writeConfig, OpenFile_writeConfig sys fs filename ho, hd, Write, hw]
  · intro ho data n e hd hw
    simp [writeConfig, OpenFile_writeConfig sys fs filename ho, hd, Write, hw]

/-- A loop step returns whenever the pruning step does. -/
theorem mainStep_isSome (M : Methods) (marshal : Configuration → Except String Bytes)
    (name : String) (st : LoopState) (msg : Configuration) (sys : Sys)
    (h : (prune M msg).isSome = true) :
    ∃ st1, mainStep M marshal name st msg sys = some st1 := by
  cases hp : prune M msg with
  | none => simp [hp] at h
  | some config =>
    rcases hw : writeConfig marshal sys name config st.fs with ⟨fs1, err⟩
    cases err with
    | none => exact ⟨{ st with fs := fs1 }, by simp [mainStep, hp, hw]⟩
    | some e =>
      exact ⟨{ fs := fs1, logged := (name, e) :: st.logged }, by simp [mainStep, hp, hw]⟩

/-- The loop goes through all messages whose pruning step returns, whatever the writes do. -/
theorem mainLoop_isSome (M : Methods) (marshal : Configuration → Except String Bytes)
    (name : String) (msgs : List (Configuration × Sys)) :
    ∀ st : LoopState, (∀ p ∈ msgs, (prune M p.1).isSome = true) →
      ∃ st1, mainLoop M marshal name st msgs = some st1 := by
  induction msgs with
  | nil => intro st _; exact ⟨st, rfl⟩
  | cons p rest ih =>
    intro st h
    obtain ⟨msg, sys⟩ := p
    obtain ⟨st1, h1⟩ := mainStep_isSome M marshal name st msg sys (h (msg, sys) (List.mem_cons_self _ _))
    obtain ⟨st2, h2⟩ := ih st1 (fun q hq => h q (List.mem_cons_of_mem _ hq))
    exact ⟨st2, by simp [mainLoop, h1, h2]⟩

/-- The loop over a list of messages followed by more messages. -/
theorem mainLoop_append (M : Methods) (marshal : Configuration → Except String Bytes)
    (name : String) (xs ys : List (Configuration × Sys)) :
    ∀ st : LoopState, mainLoop M marshal name st (xs ++ ys) =
      (mainLoop M marshal name st xs).bind (fun st1 => mainLoop M marshal name st1 ys) := by
  induction xs with
  | nil => intro st; simp [mainLoop]
  | cons p rest ih =>
    intro st
    obtain ⟨msg, sys⟩ := p
    simp only [List.cons_append, mainLoop]
    cases mainStep M marshal name st msg sys with
    | none => rfl
    | some st1 => exact ih st1

/-! ## The claims about `isZero` -/

/-- C2: for a record whose type has no `IsZero` method, `isZero` returns `true` exactly when
`isZero` returns `true` on every exported field; it returns whenever the tests of the exported
fields return; a record that differs only in hidden fields gets the same result; and a record
with only hidden fields is empty. -/
theorem isZero_struct_visible_fields (M : Methods) (t : TypeName) (fs : List Field)
    (h : M t = none) :
    (isZero M (.struct t fs) = some true ↔
        ∀ f ∈ fs, f.PkgPath = "" → isZero M f.value = some true) ∧
      ((∀ f ∈ fs, f.PkgPath = "" → (isZero M f.value).isSome = true) →
        (isZero M (.struct t fs)).isSome = true) ∧
      (∀ gs, sameVisible fs gs → isZero M (.struct t gs) = isZero M (.struct t fs)) ∧
      ((∀ f ∈ fs, f.PkgPath ≠ "") → isZero M (.struct t fs) = some true) := by
  have hs : ∀ gs, isZero M (.struct t gs) = isZeroFields M gs := fun gs => by
    rw [isZero]
    exact viaIsZeroer_of_no_method M _ t _ rfl h
  refine ⟨?_, ?_, ?_, ?_⟩
  · rw [hs]
    exact isZeroFields_eq_true_iff M fs
  · intro hret
    rw [hs]
    exact isZeroFields_isSome M fs hret
  · intro gs hg
    rw [hs, hs]
    exact isZeroFields_sameVisible M fs gs hg
  · intro hid
    rw [hs, isZeroFields_eq_true_iff]
    intro f hf hp
    exact absurd hp (hid f hf)

/-- Witness of C2: a record with an empty exported string and a hidden non-zero counter is
empty. -/
theorem isZero_struct_visible_fields_witness :
    noMethods "main.R" = none ∧
      isZero noMethods (.struct "main.R"
          [.mk "Name" "" (.string "string" ""), .mk "hits" "main" (.int "int" 7)]) = some true :=
  ⟨rfl, (isZero_struct_visible_fields noMethods "main.R"
    [.mk "Name" "" (.string "string" ""), .mk "hits" "main" (.int "int" 7)] rfl).1.2
      (by decide)⟩

/-- C4: `isZero` returns `true` on a nil pointer and on a nil interface, whatever the method
sets are: also when the pointer type has an `IsZero` method, and also when that method would
return `false` or panic, so the method is not called. -/
theorem isZero_nil_reference (M : Methods) (t : TypeName) :
    isZero M (.ptr t none) = some true ∧ isZero M (.iface none) = some true := by
  constructor
  · rw [isZero]
    cases hm : M t <;>
      simp [viaIsZeroer, assertIsZeroer, Value.Interface, Value.dynType, Value.Kind,
        Value.IsNil, hm]
  · rw [isZero]
    simp [viaIsZeroer, assertIsZeroer, Value.Interface, Value.IsNil]

/-- C5: for a slice or a map whose type has no `IsZero` method, `isZero` returns `true` exactly
when the length is `0` and `false` when the length is at least `1`; the elements are not
looked at. -/
theorem isZero_container_shallow (M : Methods) (t : TypeName) (xs : List Value)
    (kvs : List (Value × Value)) (h : M t = none) :
    (isZero M (.slice t xs) = some true ↔ xs.length = 0) ∧
      (1 ≤ xs.length → isZero M (.slice t xs) = some false) ∧
      (isZero M (.map t kvs) = some true ↔ kvs.length = 0) ∧
      (1 ≤ kvs.length → isZero M (.map t kvs) = some false) := by
  have hs : isZero M (.slice t xs) = some (xs.length == 0) := by
    rw [isZero]
    exact viaIsZeroer_of_no_method M _ t _ rfl h
  have hm : isZero M (.map t kvs) = some (kvs.length == 0) := by
    rw [isZero]
    exact viaIsZeroer_of_no_method M _ t _ rfl h
  rw [hs, hm]
  refine ⟨?_, ?_, ?_, ?_⟩
  · simp
  · intro hlen
    have : xs.length ≠ 0 := by omega
    simp [this]
  · simp
  · intro hlen
    have : kvs.length ≠ 0 := by omega
    simp [this]

/-- Witness of C5: the one-element slice holding the empty string is not empty, although its
element is. -/
theorem isZero_container_shallow_witness :
    noMethods "[]string" = none ∧
      isZero noMethods (.string "string" "") = some true ∧
      isZero noMethods (.slice "[]string" [.string "string" ""]) = some false :=
  ⟨rfl, by decide,
    (isZero_container_shallow noMethods "[]string" [.string "string" ""] [] rfl).2.1
      (by decide)⟩

/-- C3 (as the code has it): on a pointer that holds a referent, `isZero` returns what the
`IsZero` method of the pointer type itself returns on the pointer when that type has one, and
the result of `isZero` on the referent otherwise; on an interface value that holds a referent,
it returns what the `IsZero` method of the referent returns when its type has one, and
`false` otherwise, without recursing on the referent. -/
theorem isZero_reference (M : Methods) (t : TypeName) (r : Value) :
    isZero M (.ptr t (some r)) =
        (match M t with
         | some m => m (.ptr t (some r))
         | none => isZero M r) ∧
      isZero M (.iface (some r)) =
        (match r.dynType.bind M with
         | some m => m r
         | none => some false) := by
  refine ⟨isZero_ptr_some M t r, ?_⟩
  rw [isZero]
  cases hd : r.dynType with
  | none => simp [viaIsZeroer, assertIsZeroer, Value.Interface, Value.IsNil, hd]
  | some tr =>
    cases hm : M tr with
    | none => simp [viaIsZeroer, assertIsZeroer, Value.Interface, Value.IsNil, hd, hm]
    | some m =>
      simp [viaIsZeroer, assertIsZeroer, Value.Interface, Value.IsNil, Value.Kind, hd, hm,
        isZeroer.IsZero]

/-- C3 fails as stated: with `type T string` and `func (t *T) IsZero() bool { return false }`,
a pointer to the empty `T` is not empty although its referent is; an interface value holding
the empty string is not empty although the empty string is; and with
`func (t T) IsZero() bool { return false }` the test panics on an interface holding a nil `*T`
although the nil pointer itself is empty. -/
theorem isZero_reference_counterexample :
    (isZero ptrRecvMethods (.ptr "*main.T" (some (.string "main.T" ""))) = some false ∧
      isZero ptrRecvMethods (.string "main.T" "") = some true) ∧
    (isZero noMethods (.iface (some (.string "string" ""))) = some false ∧
      isZero noMethods (.string "string" "") = some true) ∧
    (isZero valueRecvMethods (.iface (some (.ptr "*main.T" none))) = none ∧
      isZero valueRecvMethods (.ptr "*main.T" none) = some true) := by
  decide

/-! ## The claims about the pruning step -/

/-- C1: when the four tests of the pruning step return, the step returns a document in which
each section is nil if `isZero` returned `true` on it and is the section of the original
document if `isZero` returned `false`. -/
theorem prune_sections (M : Methods) (d : Configuration) (bT bU bH bL : Bool)
    (hT : isZero M (ValueOf tcpType d.TCP) = some bT)
    (hU : isZero M (ValueOf udpType d.UDP) = some bU)
    (hH : isZero M (ValueOf httpType d.HTTP) = some bH)
    (hL : isZero M (ValueOf tlsType d.TLS) = some bL) :
    prune M d = some
      { HTTP := if bH then none else d.HTTP, TCP := if bT then none else d.TCP,
        UDP := if bU then none else d.UDP, TLS := if bL then none else d.TLS } :=
  prune_eq M d bT bU bH bL hT hU hH hL

/-- Witness of C1: the document with a populated HTTP section and default-constructed TCP, UDP
and TLS sections keeps only HTTP. -/
theorem prune_sections_witness :
    isZero noMethods (ValueOf tcpType httpOnlyDoc.TCP) = some true ∧
      isZero noMethods (ValueOf udpType httpOnlyDoc.UDP) = some true ∧
      isZero noMethods (ValueOf httpType httpOnlyDoc.HTTP) = some false ∧
      isZero noMethods (ValueOf tlsType httpOnlyDoc.TLS) = some true ∧
      prune noMethods httpOnlyDoc =
        some { HTTP := some oneRuleHTTP, TCP := none, UDP := none, TLS := none } :=
  ⟨by decide, by decide, by decide, by decide,
    prune_sections noMethods httpOnlyDoc true true false true (by decide) (by decide)
      (by decide) (by decide)⟩

/-- C6: pruning the pruned document gives the pruned document, and pruning twice panics exactly
when pruning once does. -/
theorem prune_idempotent (M : Methods) (d : Configuration) :
    (prune M d).bind (prune M) = prune M d := by
  cases h : prune M d with
  | none => rfl
  | some d1 => exact prune_fixed M d d1 h

/-- C7: in the pruned document, every section that is still present is a record with an
exported field that is not empty under `isZero`, and it is populated: the same holds in turn
for every non-empty field that is a record or a reference to a record. The documents are those
`main` receives, whose sections have the shape of the section types of the traefik library. -/
theorem pruned_section_populated (M : Methods) (d d1 : Configuration) (T : TypeName) (r : Value)
    (hshape : d.shaped M = true) (h : prune M d = some d1)
    (hsec : (T, some r) ∈ d1.sections) :
    (∃ t fs, r = .struct t fs ∧
        ∃ f ∈ fs, f.PkgPath = "" ∧ isZero M f.value = some false ∧
          populated M f.value = true) ∧
      populated M (ValueOf T (some r)) = true := by
  have hmem := pruned_section_mem M d d1 h T r hsec
  obtain ⟨t, fs, hr, hT, ht, hfields⟩ :=
    (sectionShaped_iff M T r).1 (shaped_section M d hshape T r hmem)
  subst hr
  have hfix := prune_fixed M d d1 h
  rcases pruned_section_nil_or_not_zero M d1 hfix T _ hsec with hnil | hz
  · cases hnil
  · rw [ValueOf, isZero_ptr_some, hT] at hz
    have hz2 : isZero M (.struct t fs) = some false := hz
    rw [isZero, viaIsZeroer_of_no_method M (.struct t fs) t _ rfl ht] at hz2
    obtain ⟨f, hf, hexp, hne⟩ := isZeroFields_eq_false M fs hz2
    have hpop : ∃ f ∈ fs, f.PkgPath = "" ∧ isZero M f.value = some false ∧
        populated M f.value = true :=
      ⟨f, hf, hexp, hne, populated_of_container M f.value (hfields f hf)⟩
    refine ⟨⟨t, fs, rfl, hpop⟩, ?_⟩
    rw [ValueOf, populated, populated]
    exact (populatedFields_iff M fs).2 hpop

/-- Witness of C7: the HTTP section of the pruned first scenario is a record with a non-empty
exported field, and is populated. -/
theorem pruned_section_populated_witness :
    httpOnlyDoc.shaped noMethods = true ∧
      prune noMethods httpOnlyDoc =
        some { HTTP := some oneRuleHTTP, TCP := none, UDP := none, TLS := none } ∧
      (∃ t fs, oneRuleHTTP = .struct t fs ∧
          ∃ f ∈ fs, f.PkgPath = "" ∧ isZero noMethods f.value = some false ∧
            populated noMethods f.value = true) ∧
        populated noMethods (ValueOf httpType (some oneRuleHTTP)) = true :=
  ⟨by decide, rfl, pruned_section_populated noMethods httpOnlyDoc
    { HTTP := some oneRuleHTTP, TCP := none, UDP := none, TLS := none }
    httpType oneRuleHTTP (by decide) rfl (by simp [Configuration.sections])⟩

/-! ## The claims about `writeConfig` and the loop -/

/-- C8 (as the code has it): a failed open returns the error and leaves the file system as it
was; after a successful open, a serialization failure returns the error and leaves the file
empty, a failed write returns the error and leaves only the bytes written before the failure,
and a successful write returns no error and leaves exactly the serialized content. -/
theorem writeConfig_outcomes (marshal : Configuration → Except String Bytes) (sys : Sys)
    (filename : String) (config : Configuration) (fs : FS) :
    (∀ e, sys.openErr = some e → writeConfig marshal sys filename config fs = (fs, some e)) ∧
    (sys.openErr = none → ∀ e, marshal config = .error e →
      (writeConfig marshal sys filename config fs).2 = some e ∧
      ∃ f, (writeConfig marshal sys filename config fs).1 filename = some f ∧ f.data = []) ∧
    (sys.openErr = none → ∀ data, marshal config = .ok data → sys.writeErr = none →
      (writeConfig marshal sys filename config fs).2 = none ∧
      ∃ f, (writeConfig marshal sys filename config fs).1 filename = some f ∧ f.data = data) ∧
    (sys.openErr = none → ∀ data n e, marshal config = .ok data → sys.writeErr = some (n, e) →
      (writeConfig marshal sys filename config fs).2 = some e ∧
      ∃ f, (writeConfig marshal sys filename config fs).1 filename = some f ∧
        f.data = data.take n) :=
  writeConfig_cases marshal sys filename config fs

/-- Witness of C8: a failed open leaves the old file as it was, and a successful call
replaces its five bytes by the serialized content. -/
theorem writeConfig_outcomes_witness :
    writeConfig marshalTags noOpenSys exampleName blankDoc oldFS
        = (oldFS, some "permission denied") ∧
      (writeConfig marshalTags okSys exampleName blankDoc oldFS).2 = none ∧
      ∃ f, (writeConfig marshalTags okSys exampleName blankDoc oldFS).1 exampleName = some f ∧
        f.data = [1, 1, 1, 1] :=
  ⟨(writeConfig_outcomes marshalTags noOpenSys exampleName blankDoc oldFS).1
      "permission denied" rfl,
    (writeConfig_outcomes marshalTags okSys exampleName blankDoc oldFS).2.2.1
      rfl [1, 1, 1, 1] rfl rfl⟩

/-- C8 fails as stated: on a file holding five bytes, a serialization failure returns an error
and leaves the file empty, and a write that fails after two bytes returns an error and leaves
two bytes; in neither case does the file keep its previous content. -/
theorem writeConfig_outcomes_counterexample :
    (oldFS exampleName).map File.data = some [7, 7, 7, 7, 7] ∧
    ((writeConfig marshalFails okSys exampleName httpOnlyDoc oldFS).2 = some "cannot marshal" ∧
      ((writeConfig marshalFails okSys exampleName httpOnlyDoc oldFS).1 exampleName).map File.data
        = some []) ∧
    ((writeConfig marshalTags shortWriteSys exampleName blankDoc oldFS).2
        = some "no space left on device" ∧
      ((writeConfig marshalTags shortWriteSys exampleName blankDoc oldFS).1 exampleName).map
        File.data = some [1, 1]) := by
  decide

/-- C9 (as the code has it): `writeConfig` opens the file with the flags `O_RDWR`, `O_CREATE`
and `O_TRUNC` and the permission `0640`: owner read-write, group read only, others none. A
successful open creates a missing file with that mode less the umask, and cuts an existing file
to length zero, keeping its mode, before anything is written. -/
theorem writeConfig_open (marshal : Configuration → Except String Bytes) (sys : Sys)
    (filename : String) (config : Configuration) (fs : FS) :
    writeConfigFlag = [.O_RDWR, .O_CREATE, .O_TRUNC] ∧
    (writeConfigPerm = 0o640 ∧ writeConfigPerm &&& 0o600 = 0o600 ∧
      writeConfigPerm &&& 0o070 = 0o040 ∧ writeConfigPerm &&& 0o007 = 0) ∧
    (sys.openErr = none → fs filename = none →
      ∃ f, (writeConfig marshal sys filename config fs).1 filename = some f ∧
        f.mode = 0o640 &&& (0o777 ^^^ (sys.umask &&& 0o777))) ∧
    (sys.openErr = none → ∀ f0, fs filename = some f0 →
      ∃ f, (writeConfig marshal sys filename config fs).1 filename = some f ∧
        f.mode = f0.mode ∧ (∀ e, marshal config = .error e → f.data = [])) := by
  refine ⟨rfl, ⟨rfl, by decide, by decide, by decide⟩, ?_, ?_⟩
  · intro ho hf
    rw [writeConfig, OpenFile_writeConfig sys fs filename ho, hf]
    cases hm : marshal config with
    | error e => simp [writeConfigPerm]
    | ok data =>
      cases hw : sys.writeErr with
      | none => simp [Write, hw, writeConfigPerm]
      | some p =>
        obtain ⟨n, e⟩ := p
        simp [Write, hw, writeConfigPerm]
  · intro ho f0 hf
    rw [writeConfig, OpenFile_writeConfig sys fs filename ho, hf]
    cases hm : marshal config with
    | error e => simp
    | ok data =>
      cases hw : sys.writeErr with
      | none => simp [Write, hw]
      | some p =>
        obtain ⟨n, e⟩ := p
        simp [Write, hw]

/-- Witness of C9: with umask `022` a missing output file is created with mode `0640`. -/
theorem writeConfig_open_witness :
    okSys.openErr = none ∧ emptyFS exampleName = none ∧
      ∃ f, (writeConfig marshalTags okSys exampleName blankDoc emptyFS).1 exampleName = some f ∧
        f.mode = 0o640 &&& (0o777 ^^^ (okSys.umask &&& 0o777)) :=
  ⟨rfl, rfl, (writeConfig_open marshalTags okSys exampleName blankDoc emptyFS).2.2.1 rfl rfl⟩

/-- C9 fails as stated: the permission passed is not `0660`; a file created with umask `0` has
mode `0640`, in which the group write bit `020` is not set. -/
theorem writeConfig_open_counterexample :
    writeConfigPerm ≠ 0o660 ∧
    ((writeConfig marshalTags noMaskSys exampleName blankDoc emptyFS).1 exampleName).map
      File.mode = some 0o640 ∧
    (0o640 : Nat) &&& 0o020 = 0 ∧ (0o660 : Nat) &&& 0o020 = 0o020 := by
  decide

/-- C10: when the pruning step returns on every earlier document, the loop reaches document N
whatever the earlier writes did; and when the open, the serialization and the write of
document N succeed, the file holds right after it exactly the serialization of the pruned
document N, whatever the earlier documents and the earlier content of the file were. -/
theorem mainLoop_full_replacement (M : Methods) (marshal : Configuration → Except String Bytes)
    (configFilename : String) (st0 : LoopState) (earlier : List (Configuration × Sys))
    (msg config : Configuration) (sys : Sys) (data : Bytes)
    (hearlier : ∀ p ∈ earlier, (prune M p.1).isSome = true)
    (hprune : prune M msg = some config) (hopen : sys.openErr = none)
    (hmarshal : marshal config = .ok data) (hwrite : sys.writeErr = none) :
    ∃ st, mainLoop M marshal configFilename st0 (earlier ++ [(msg, sys)]) = some st ∧
      ∃ f, st.fs configFilename = some f ∧ f.data = data := by
  obtain ⟨st1, h1⟩ := mainLoop_isSome M marshal configFilename earlier st0 hearlier
  obtain ⟨herr, f, hf, hdata⟩ :=
    (writeConfig_cases marshal sys configFilename config st1.fs).2.2.1 hopen data hmarshal hwrite
  rcases hw : writeConfig marshal sys configFilename config st1.fs with ⟨fs1, err⟩
  rw [hw] at herr hf
  simp only at herr hf
  subst herr
  refine ⟨{ st1 with fs := fs1 }, ?_, f, hf, hdata⟩
  rw [mainLoop_append, h1]
  simp [mainLoop, mainStep, hprune, hw]

/-- Witness of C10: the first document, with a populated HTTP section, is written; the same
document then meets a failed open; the third, with no populated section, is written, and the
file then holds the serialization of the third pruned document, with no trace of the first or
of the earlier content. -/
theorem mainLoop_full_replacement_witness :
    (∀ p ∈ [(httpOnlyDoc, okSys), (httpOnlyDoc, noOpenSys)],
        (prune noMethods p.1).isSome = true) ∧
      prune noMethods blankDoc = some { HTTP := none, TCP := none, UDP := none, TLS := none } ∧
      marshalTags { HTTP := none, TCP := none, UDP := none, TLS := none } = .ok [0, 0, 0, 0] ∧
      ∃ st, mainLoop noMethods marshalTags exampleName { fs := oldFS, logged := [] }
            ([(httpOnlyDoc, okSys), (httpOnlyDoc, noOpenSys)] ++ [(blankDoc, okSys)])
            = some st ∧
          ∃ f, st.fs exampleName = some f ∧ f.data = [0, 0, 0, 0] :=
  ⟨fun p _ => prune_noMethods_isSome p.1, rfl, rfl,
    mainLoop_full_replacement noMethods marshalTags exampleName { fs := oldFS, logged := [] }
      [(httpOnlyDoc, okSys), (httpOnlyDoc, noOpenSys)] blankDoc
      { HTTP := none, TCP := none, UDP := none, TLS := none } okSys [0, 0, 0, 0]
      (fun p _ => prune_noMethods_isSome p.1) rfl rfl rfl rfl⟩

end TraefikWatch
